import Mathlib

/-!
Verification of the rendering and introspection core of `holo-cli`
(`src/internal_commands.rs`): the configuration flattener
(`cmd_show_config_cmds`), the command-trie enumerator (`cmd_list_root`),
the diff orchestration (`cmd_show_config_changes`), the format dispatch of
the `show` handlers, and the `DataNodeRefExt` child-value accessors.

The Rust data structures are shallowly embedded: `DataNodeRef` trees become
a nested inductive `DataNode` with an explicit children list, and parent
back-references are represented by passing the (bottom-up) list of strict
ancestors alongside each visited node during traversal.  Fallible code
(`Option::unwrap`, i.e. a potential panic) is embedded in `Option`: `none`
models a panic.
-/

namespace HoloCli

/-- Schema node kinds, as distinguished by `cmd_show_config_cmds`:
`container np` carries `is_np_container`, `leaf lk` carries `is_list_key`;
all remaining schema kinds are collapsed into `other` (the Rust `match`
treats them uniformly via `_ => false`). -/
inductive NodeKind where
  | container : Bool → NodeKind
  | leaf : Bool → NodeKind
  | leafList : NodeKind
  | list : NodeKind
  | other : NodeKind
deriving DecidableEq, Repr

/-- A configuration/state data node (`DataNodeRef`): schema name, schema
kind, optional canonical value (`value_canonical`), default flag
(`is_default`) and ordered children. -/
inductive DataNode where
  | mk : String → NodeKind → Option String → Bool → List DataNode → DataNode

def DataNode.name : DataNode → String
  | .mk nm _ _ _ _ => nm

def DataNode.kind : DataNode → NodeKind
  | .mk _ k _ _ _ => k

def DataNode.value : DataNode → Option String
  | .mk _ _ v _ _ => v

def DataNode.isDefault : DataNode → Bool
  | .mk _ _ _ d _ => d

def DataNode.children : DataNode → List DataNode
  | .mk _ _ _ _ cs => cs

mutual

/-- Document-order (pre-order) traversal of the subtree rooted at `n`,
pairing every visited node with the list of its strict ancestors
(nearest first).  This embeds `DataTree::traverse`, which yields each
data node together with its parent back-references. -/
def traverseNode (ancs : List DataNode) : DataNode → List (List DataNode × DataNode)
  | .mk nm k v d cs =>
      (ancs, .mk nm k v d cs) :: traverseForest (.mk nm k v d cs :: ancs) cs
termination_by n => sizeOf n

/-- Pre-order traversal of a forest of sibling subtrees. -/
def traverseForest (ancs : List DataNode) :
    List DataNode → List (List DataNode × DataNode)
  | [] => []
  | n :: rest => traverseNode ancs n ++ traverseForest ancs rest
termination_by l => sizeOf l

end

/-- Sequencing of fallible element-wise computation over a list: `none` as
soon as one element fails.  This embeds a Rust loop whose body may
`unwrap` (panic): the first panic aborts the whole computation. -/
def optionMapAll (f : α → Option β) : List α → Option (List β)
  | [] => some []
  | a :: l =>
    match f a, optionMapAll f l with
    | some b, some bs => some (b :: bs)
    | _, _ => none

/-- Concatenation of text chunks appended one after another into a string
buffer, as the Rust code does with `write!`/`writeln!` on `output`. -/
def strConcat : List String → String
  | [] => ""
  | s :: rest => s ++ strConcat rest

/-- The kind filter of `cmd_show_config_cmds`: data nodes that represent
full commands.  Mirrors the Rust `match snode.kind()`:
presence containers, non-key leaves, leaf-lists and lists. -/
def visitedKind (n : DataNode) : Bool :=
  match n.kind with
  | .container np => !np
  | .leaf lk => !lk
  | .leafList => true
  | .list => true
  | .other => false

/-- `DataNodeRef::list_keys`: the children that are list keys
(in schema order). -/
def DataNode.listKeys (n : DataNode) : List DataNode :=
  n.children.filter (fun c => decide (c.kind = NodeKind.leaf true))

/-- The indentation string of a visited node: one space per strict
ancestor of kind List (the Rust loop `for _ in dnode.ancestors()
.filter(kind == List) { write!(indent, " ") }`). -/
def indentOf (ancs : List DataNode) : String :=
  String.mk (List.replicate
    (ancs.countP (fun a => decide (a.kind = NodeKind.list))) ' ')

/-- The top-down local path used to build one command line: the node's
inclusive ancestors, taken while (above the node itself) the ancestor is
not of kind List, then reversed.  Mirrors
`dnode.inclusive_ancestors().take_while(...).rev()`; the Rust
`*iter == dnode` escape admits the node itself unconditionally, and a
strict ancestor is never identical to the node. -/
def localPath (ancs : List DataNode) (n : DataNode) : List DataNode :=
  (n :: ancs.takeWhile (fun a => decide (a.kind ≠ NodeKind.list))).reverse

/-- The tokens contributed by one node of the local path: its schema name,
the canonical values of its list keys (each `unwrap`ped: a key without a
canonical value panics, modelled by `none`), and its own canonical value
when present. -/
def nodeTokens (n : DataNode) : Option (List String) :=
  match optionMapAll (fun k => k.value) n.listKeys with
  | none => none
  | some keyVals =>
    some (n.name :: keyVals ++
      (match n.value with
       | some v => [v]
       | none => []))

/-- The text emitted for one visited node: the `indent`-prefixed command
line (tokens joined by single spaces), preceded by an `indent ++ "!"`
separator line when the node is of kind List. -/
def visitChunk (ancs : List DataNode) (n : DataNode) : Option String :=
  match optionMapAll nodeTokens (localPath ancs n) with
  | none => none
  | some toksList =>
    let line := indentOf ancs ++ String.intercalate " " toksList.flatten ++ "\n"
    some (if n.kind = NodeKind.list then indentOf ancs ++ "!\n" ++ line else line)

/-- The document-order sequence of nodes that `cmd_show_config_cmds`
emits: the traversal filtered by the kind filter and by the
with-defaults filter (`with_defaults || !dnode.is_default()`). -/
def filteredVisits (config : List DataNode) (withDefaults : Bool) :
    List (List DataNode × DataNode) :=
  (traverseForest [] config).filter
    (fun p => visitedKind p.2 && (withDefaults || !p.2.isDefault))

/-- The configuration flattener `cmd_show_config_cmds`: emit one chunk per
filtered visited node in document order, then the `!` footer line.
`none` models a panic of one of the internal `unwrap`s. -/
def cmd_show_config_cmds (config : List DataNode) (withDefaults : Bool) :
    Option String :=
  match optionMapAll (fun p => visitChunk p.1 p.2)
      (filteredVisits config withDefaults) with
  | none => none
  | some chunks => some (strConcat chunks ++ "!\n")

/-!  The command trie. -/

/-- Modelled from the spec: the kinds of a command token.  `crate::token::
TokenKind` itself is not part of the extracted source; the spec's data
model lists "Word (free-form/placeholder), Keyword (fixed literal),
other structural kinds", so a representative third kind is included. -/
inductive TokenKind where
  | word : TokenKind
  | keyword : TokenKind
  | other : TokenKind
deriving DecidableEq, Repr

/-- A command-trie token: arena id, name, kind, optional action (only its
presence matters to the enumerator), and arena-ordered children. -/
inductive TokenNode where
  | mk : Nat → String → TokenKind → Option Unit → List TokenNode → TokenNode

def TokenNode.id : TokenNode → Nat
  | .mk i _ _ _ _ => i

def TokenNode.name : TokenNode → String
  | .mk _ nm _ _ _ => nm

def TokenNode.kind : TokenNode → TokenKind
  | .mk _ _ k _ _ => k

def TokenNode.action : TokenNode → Option Unit
  | .mk _ _ _ a _ => a

def TokenNode.children : TokenNode → List TokenNode
  | .mk _ _ _ _ cs => cs

mutual

/-- Pre-order traversal of the subtree rooted at token `t` (as
`NodeId::descendants` yields it), pairing each token with its strict
ancestors (nearest first) within the traversed subtree. -/
def tokenVisits (ancs : List TokenNode) : TokenNode → List (List TokenNode × TokenNode)
  | .mk i nm k a cs =>
      (ancs, .mk i nm k a cs) :: tokenVisitsForest (.mk i nm k a cs :: ancs) cs
termination_by t => sizeOf t

/-- Pre-order traversal of a forest of sibling token subtrees. -/
def tokenVisitsForest (ancs : List TokenNode) :
    List TokenNode → List (List TokenNode × TokenNode)
  | [] => []
  | t :: rest => tokenVisits ancs t ++ tokenVisitsForest ancs rest
termination_by l => sizeOf l

end

/-- Character-wise upper-casing, embedding `str::to_uppercase` (command
tokens are ASCII). -/
def strToUpper (s : String) : String :=
  String.mk (s.data.map Char.toUpper)

/-- Rendering of one token on a command path: upper-cased unless the kind
is Word (the Rust `if token.kind != TokenKind::Word`). -/
def renderToken (t : TokenNode) : String :=
  if t.kind ≠ TokenKind.word then strToUpper t.name else t.name

/-- One output line of `cmd_list_root` for an action-bearing token `t`:
its inclusive ancestor chain (`t` first, then `upChain` bottom-up, ending
at the trie's outermost root) is filtered to ids strictly greater than the
enumeration root's id, reversed to top-down order, and each kept token is
rendered followed by one space. -/
def renderLine (rootId : Nat) (upChain : List TokenNode) (t : TokenNode) : String :=
  let chain := (t :: upChain).filter (fun x => decide (rootId < x.id))
  strConcat (chain.reverse.map (fun tok => renderToken tok ++ " "))

/-- The command-trie enumerator `cmd_list_root`: all strict descendants of
`root` in pre-order, filtered to tokens whose action is present, each
rendered as one line.  `fullAncs` are the strict ancestors of `root`
itself in the arena (nearest first), which `NodeId::ancestors` also
yields and the id filter must discard. -/
def cmd_list_root (fullAncs : List TokenNode) (root : TokenNode) : List String :=
  (((tokenVisits [] root).drop 1).filter (fun p => p.2.action.isSome)).map
    (fun p => renderLine root.id (p.1 ++ fullAncs) p.2)

/-!  Handler-level format dispatch of `cmd_show_config` / `cmd_show_state`. -/

/-- The rendering a `show` handler proceeds with after dispatching on the
optional `format` argument. -/
inductive RenderFormat where
  | cmds : RenderFormat
  | json : RenderFormat
  | xml : RenderFormat
deriving DecidableEq, Repr

/-- Outcome of the format dispatch: either the handler proceeds (and will
return normally), or it panics, aborting the process. -/
inductive HandlerStep where
  | proceed : RenderFormat → HandlerStep
  | panicked : String → HandlerStep
deriving DecidableEq, Repr

/-- The `format` match of `cmd_show_config`: `json`/`xml` select the YANG
printers, any other supplied format panics with "unknown format", an
absent format selects `cmd_show_config_cmds`. -/
def cmd_show_config_format : Option String → HandlerStep
  | some "json" => .proceed .json
  | some "xml" => .proceed .xml
  | some _ => .panicked "unknown format"
  | none => .proceed .cmds

/-- The `format` match of `cmd_show_state`: `json`/`xml` select the data
format, any other supplied format panics with "unknown format", an absent
format defaults to JSON. -/
def cmd_show_state_format : Option String → HandlerStep
  | some "json" => .proceed .json
  | some "xml" => .proceed .xml
  | some _ => .panicked "unknown format"
  | none => .proceed .json

/-!  Diff orchestration. -/

/-- The request `cmd_show_config_changes` hands to the external line-diff
collaborator (`similar::TextDiff ... unified_diff()`): the two flattened
texts, the context radius and the two header labels. -/
structure UnifiedDiffRequest where
  oldText : String
  newText : String
  contextRadius : Nat
  oldHeader : String
  newHeader : String
deriving DecidableEq, Repr

/-- `cmd_show_config_changes`: flatten the running and the candidate
snapshots (both without defaults) and hand them to the unified-diff
formatter with context radius 9 and fixed header labels. -/
def cmd_show_config_changes (running candidate : List DataNode) :
    Option UnifiedDiffRequest :=
  match cmd_show_config_cmds running false, cmd_show_config_cmds candidate false with
  | some r, some c =>
      some ⟨r, c, 9, "running configuration", "candidate configuration"⟩
  | _, _ => none

/-!  `DataNodeRefExt` accessors. -/

/-- `child_opt_value`: find the first child whose schema name equals
`name` and `unwrap` its canonical value.  The outer `Option` models the
panic of that `unwrap` (`none` = panic); the inner `Option` is the Rust
return value. -/
def child_opt_value (n : DataNode) (name : String) : Option (Option String) :=
  match n.children.find? (fun c => c.name == name) with
  | none => some none
  | some c =>
    match c.value with
    | some v => some (some v)
    | none => none

/-- `child_value`: `child_opt_value` with `unwrap_or("-")`. -/
def child_value (n : DataNode) (name : String) : Option String :=
  (child_opt_value n name).map (fun o => o.getD "-")

/-!  Concrete inputs used by counterexamples and witnesses. -/

/-- The tree of the spec's hostname scenario: a presence container
"system" (non-default) holding a non-default leaf "hostname" = "router1". -/
def hostnameTree : List DataNode :=
  [ .mk "system" (NodeKind.container false) none false
      [ .mk "hostname" (NodeKind.leaf false) (some "router1") false [] ] ]

/-- A default-valued leaf, as in the spec's `mtu 1500` scenario. -/
def mtuLeaf : DataNode :=
  .mk "mtu" (NodeKind.leaf false) (some "1500") true []

/-- A list-key leaf `name = eth0`. -/
def ifaceKey : DataNode :=
  .mk "name" (NodeKind.leaf true) (some "eth0") false []

/-- A list entry `interface eth0` with its key child. -/
def ifaceList : DataNode :=
  .mk "interface" NodeKind.list none false [ifaceKey]

/-- An enclosing List-kind ancestor used to exercise indentation. -/
def outerList : DataNode :=
  .mk "vrf" NodeKind.list none false []

/-- A state container with a value-bearing child, for the accessor claims. -/
def ifaceState : DataNode :=
  .mk "interface" NodeKind.list none false
    [ .mk "name" (NodeKind.leaf true) (some "eth0") false [],
      .mk "state" (NodeKind.leaf false) (some "up") false [] ]

/-- A trie whose enumeration root has one action-bearing child of the
spec-modelled third (structural, non-Word, non-Keyword) token kind. -/
def otherKindRoot : TokenNode :=
  .mk 0 "cfg" TokenKind.word none
    [ .mk 1 "xyz" TokenKind.other (some ()) [] ]

/-- A Word-kind token. -/
def wordTok : TokenNode :=
  .mk 6 "name" TokenKind.word none []

/-- A Keyword-kind token. -/
def keywordTok : TokenNode :=
  .mk 7 "state" TokenKind.keyword (some ()) []

/-- Strict ancestors of an action token below an enumeration root of id 3. -/
def c7below : List TokenNode :=
  [ .mk 5 "interface" TokenKind.word none [] ]

/-- The enumeration root (id 3) and its own strict ancestor (id 1), which
the id filter must discard. -/
def c7above : List TokenNode :=
  [ .mk 3 "configure" TokenKind.word none [], .mk 1 "top" TokenKind.word none [] ]

/-!  Helper lemmas about the embedding combinators. -/

theorem optionMapAll_nil {α β : Type} (f : α → Option β) :
    optionMapAll f [] = some [] := rfl

theorem optionMapAll_cons_eq_some {α β : Type} {f : α → Option β}
    {a : α} {l : List α} {bs : List β} :
    optionMapAll f (a :: l) = some bs ↔
      ∃ b bs', f a = some b ∧ optionMapAll f l = some bs' ∧ bs = b :: bs' := by
  simp only [optionMapAll]
  cases hfa : f a <;> cases hrest : optionMapAll f l <;> simp [eq_comm]

theorem optionMapAll_mem {α β : Type} {f : α → Option β} :
    ∀ {l : List α} {bs : List β}, optionMapAll f l = some bs →
      ∀ b ∈ bs, ∃ a, a ∈ l ∧ f a = some b := by
  intro l
  induction l with
  | nil =>
    intro bs h b hb
    rw [optionMapAll_nil] at h
    cases h
    simp at hb
  | cons a l ih =>
    intro bs h b hb
    rcases optionMapAll_cons_eq_some.1 h with ⟨b0, bs', hb0, hbs', rfl⟩
    rcases List.mem_cons.1 hb with hb | hb
    · exact ⟨a, List.mem_cons_self a l, by rw [hb0, hb]⟩
    · rcases ih hbs' b hb with ⟨x, hx, hfx⟩
      exact ⟨x, List.mem_cons_of_mem a hx, hfx⟩

theorem optionMapAll_isSome {α β : Type} {f : α → Option β} :
    ∀ {l : List α}, (∀ a ∈ l, (f a).isSome = true) →
      ∃ bs, optionMapAll f l = some bs := by
  intro l
  induction l with
  | nil => intro _; exact ⟨[], rfl⟩
  | cons a l ih =>
    intro h
    rcases Option.isSome_iff_exists.1 (h a (List.mem_cons_self a l)) with ⟨b, hb⟩
    rcases ih (fun x hx => h x (List.mem_cons_of_mem a hx)) with ⟨bs, hbs⟩
    exact ⟨b :: bs, optionMapAll_cons_eq_some.2 ⟨b, bs, hb, hbs, rfl⟩⟩

theorem optionMapAll_sublist {α β : Type} {f : α → Option β}
    {l₁ l₂ : List α} (hsub : l₁.Sublist l₂) :
    ∀ {bs₁ bs₂ : List β}, optionMapAll f l₁ = some bs₁ →
      optionMapAll f l₂ = some bs₂ → bs₁.Sublist bs₂ := by
  induction hsub with
  | slnil =>
    intro bs₁ bs₂ h1 h2
    rw [optionMapAll_nil] at h1 h2
    cases h1; cases h2
    exact List.Sublist.refl _
  | cons a _ ih =>
    intro bs₁ bs₂ h1 h2
    rcases optionMapAll_cons_eq_some.1 h2 with ⟨b, bs', _, hbs', rfl⟩
    exact (ih h1 hbs').cons b
  | cons₂ a _ ih =>
    intro bs₁ bs₂ h1 h2
    rcases optionMapAll_cons_eq_some.1 h1 with ⟨b, bs', hb, hbs', rfl⟩
    rcases optionMapAll_cons_eq_some.1 h2 with ⟨c, cs', hc, hcs', rfl⟩
    rw [hb] at hc
    cases hc
    exact (ih hbs' hcs').cons₂ b

theorem mem_of_mem_takeWhile {α : Type} {p : α → Bool} {l : List α} {x : α}
    (h : x ∈ l.takeWhile p) : x ∈ l :=
  (List.takeWhile_sublist p).mem h

theorem nlTerminated_append {a b : String}
    (ha : a = "" ∨ ∃ q, a = q ++ "\n") (hb : b = "" ∨ ∃ q, b = q ++ "\n") :
    a ++ b = "" ∨ ∃ q, a ++ b = q ++ "\n" := by
  rcases hb with hb | ⟨q, hq⟩
  · rw [hb, String.append_empty]; exact ha
  · rw [hq]; exact Or.inr ⟨a ++ q, (String.append_assoc a q "\n").symm⟩

theorem nlTerminated_strConcat :
    ∀ {cs : List String}, (∀ c ∈ cs, ∃ q, c = q ++ "\n") →
      strConcat cs = "" ∨ ∃ q, strConcat cs = q ++ "\n" := by
  intro cs
  induction cs with
  | nil => intro _; exact Or.inl rfl
  | cons c cs ih =>
    intro h
    rw [strConcat]
    exact nlTerminated_append (Or.inr (h c (List.mem_cons_self c cs)))
      (ih fun x hx => h x (List.mem_cons_of_mem c hx))

theorem visitChunk_nl {ancs : List DataNode} {n : DataNode} {s : String}
    (h : visitChunk ancs n = some s) : ∃ q, s = q ++ "\n" := by
  rw [visitChunk] at h
  cases hm : optionMapAll nodeTokens (localPath ancs n) <;> rw [hm] at h
  · simp at h
  · simp only [Option.some.injEq] at h
    subst h
    split
    · exact ⟨_, (String.append_assoc _ _ "\n").symm⟩
    · exact ⟨_, rfl⟩

theorem nodeTokens_isSome {n : DataNode}
    (h : ∀ k ∈ n.listKeys, (k.value).isSome = true) :
    (nodeTokens n).isSome = true := by
  rcases optionMapAll_isSome h with ⟨bs, hbs⟩
  rw [nodeTokens, hbs]
  simp

theorem visitChunk_isSome {ancs : List DataNode} {n : DataNode}
    (h : ∀ x ∈ localPath ancs n, ∀ k ∈ x.listKeys, (k.value).isSome = true) :
    (visitChunk ancs n).isSome = true := by
  rcases optionMapAll_isSome (fun x hx => nodeTokens_isSome (h x hx)) with ⟨toks, htoks⟩
  rw [visitChunk, htoks]
  simp

theorem intercalate_go_space (l : List String) :
    ∀ acc : String, String.intercalate.go acc " " l ++ " " =
      acc ++ " " ++ strConcat (l.map (fun s => s ++ " ")) := by
  induction l with
  | nil =>
    intro acc
    rw [String.intercalate.go, List.map_nil, strConcat, String.append_empty]
  | cons a l ih =>
    intro acc
    rw [String.intercalate.go, ih, List.map_cons, strConcat]
    simp [String.append_assoc]

theorem strConcat_map_space {l : List String} (h : l ≠ []) :
    strConcat (l.map (fun s => s ++ " ")) = String.intercalate " " l ++ " " := by
  cases l with
  | nil => exact absurd rfl h
  | cons a l =>
    rw [String.intercalate, intercalate_go_space, List.map_cons, strConcat]

theorem filter_chain {rootId : Nat} {below above : List TokenNode} {t : TokenNode}
    (hb : ∀ x ∈ t :: below, rootId < x.id)
    (ha : ∀ x ∈ above, ¬ rootId < x.id) :
    (t :: (below ++ above)).filter (fun x => decide (rootId < x.id)) = t :: below := by
  have h1 : (t :: below).filter (fun x => decide (rootId < x.id)) = t :: below :=
    List.filter_eq_self.2 (fun a hA => by simpa using hb a hA)
  have h2 : above.filter (fun x => decide (rootId < x.id)) = [] :=
    List.filter_eq_nil_iff.2 (fun a hA => by simpa using ha a hA)
  have h3 : (t :: (below ++ above)) = (t :: below) ++ above := by simp
  rw [h3, List.filter_append, h1, h2, List.append_nil]

/-!  Concrete evaluations of the traversals (the traversal functions are
defined by well-founded recursion, so explicit equation rewriting is used
to evaluate them on the concrete inputs). -/

theorem hostnameVisits :
    filteredVisits hostnameTree false =
      [ ([], .mk "system" (NodeKind.container false) none false
          [ .mk "hostname" (NodeKind.leaf false) (some "router1") false [] ]),
        ([ .mk "system" (NodeKind.container false) none false
            [ .mk "hostname" (NodeKind.leaf false) (some "router1") false [] ] ],
          .mk "hostname" (NodeKind.leaf false) (some "router1") false [] ) ] := by
  simp [hostnameTree, filteredVisits, traverseForest, traverseNode, visitedKind,
    DataNode.children, DataNode.kind, DataNode.isDefault]

theorem mtuVisits : traverseForest [] [mtuLeaf] = [([], mtuLeaf)] := by
  simp [mtuLeaf, traverseForest, traverseNode, DataNode.children]

theorem mtuVisitsFalse : filteredVisits [mtuLeaf] false = [] := by
  rw [filteredVisits, mtuVisits]
  rfl

theorem mtuVisitsTrue : filteredVisits [mtuLeaf] true = [([], mtuLeaf)] := by
  rw [filteredVisits, mtuVisits]
  rfl

theorem emptyVisits : filteredVisits [] false = [] := by
  rw [filteredVisits]
  rw [traverseForest]
  rfl

theorem emptyFlatten : cmd_show_config_cmds [] false = some "!\n" := by
  rw [cmd_show_config_cmds, emptyVisits]
  rfl

theorem ifaceVisits :
    traverseForest [] [ifaceList] = [([], ifaceList), ([ifaceList], ifaceKey)] := by
  simp [ifaceList, ifaceKey, traverseForest, traverseNode, DataNode.children]

theorem otherKindVisits :
    tokenVisits [] otherKindRoot =
      [ ([], otherKindRoot),
        ([otherKindRoot], .mk 1 "xyz" TokenKind.other (some ()) []) ] := by
  simp [otherKindRoot, tokenVisits, tokenVisitsForest, TokenNode.children]

/-!  Claim C1. -/

/-- Claim C1, counterexample: an unrecognized output format does NOT make
the handlers report an error and return normally — both `cmd_show_config`
and `cmd_show_state` panic with "unknown format" (aborting the process)
when the user supplies the format "yaml". -/
theorem c1_counterexample :
    cmd_show_config_format (some "yaml") = HandlerStep.panicked "unknown format" ∧
    cmd_show_state_format (some "yaml") = HandlerStep.panicked "unknown format" := by
  exact ⟨rfl, rfl⟩

/-- Claim C1 (amended): for every supplied format other than "json" and
"xml", the show-configuration and show-state handlers panic with the
message "unknown format" (aborting the process) instead of reporting the
error with a user-facing prefix and returning normally. -/
theorem c1_amended (s : String) (h1 : s ≠ "json") (h2 : s ≠ "xml") :
    cmd_show_config_format (some s) = HandlerStep.panicked "unknown format" ∧
    cmd_show_state_format (some s) = HandlerStep.panicked "unknown format" := by
  constructor
  · unfold cmd_show_config_format
    split <;> simp_all
  · unfold cmd_show_state_format
    split <;> simp_all

/-- Claim C1, witness: the amended statement at the concrete format
"text". -/
theorem c1_amended_witness :
    cmd_show_config_format (some "text") = HandlerStep.panicked "unknown format" ∧
    cmd_show_state_format (some "text") = HandlerStep.panicked "unknown format" :=
  c1_amended "text" (by decide) (by decide)

/-!  Claim C2. -/

/-- Claim C2, counterexample: on the claimed tree (presence container
"system" holding leaf "hostname" = "router1", both non-default), the
flattener does NOT return "system\n hostname router1\n!\n" — the local
path of the leaf includes the container, so the second line repeats the
container name and carries no indentation. -/
theorem c2_counterexample :
    cmd_show_config_cmds hostnameTree false ≠ some "system\n hostname router1\n!\n" := by
  rw [cmd_show_config_cmds, hostnameVisits]
  decide

/-- Claim C2 (amended): on the scenario tree, `flatten(root, false)`
returns exactly "system\nsystem hostname router1\n!\n": the leaf's line
is the full space-joined local path "system hostname router1", with no
indentation since there is no List ancestor. -/
theorem c2_amended :
    cmd_show_config_cmds hostnameTree false =
      some "system\nsystem hostname router1\n!\n" := by
  rw [cmd_show_config_cmds, hostnameVisits]
  decide

/-!  Claim C3. -/

/-- Claim C3, counterexample: a token of a structural kind other than Word
and Keyword (modelled from the spec's token-kind list) that bears an
action is rendered UPPER-CASED by the enumerator, not unchanged as the
claim states: the trie whose root has one action child of the third kind
named "xyz" enumerates to "XYZ ". -/
theorem c3_counterexample :
    cmd_list_root [] otherKindRoot = ["XYZ "] ∧ ("XYZ " : String) ≠ "xyz " := by
  constructor
  · rw [cmd_list_root, otherKindVisits]
    decide
  · decide

/-- Claim C3 (amended): a token on a rendered path is printed upper-cased
exactly when its kind is NOT Word, and printed with its name unchanged
exactly when its kind is Word (the code tests `kind != Word`, not
`kind == Keyword`). -/
theorem c3_amended (t : TokenNode) :
    (t.kind = TokenKind.word → renderToken t = t.name) ∧
    (t.kind ≠ TokenKind.word → renderToken t = strToUpper t.name) := by
  constructor <;> intro h <;> simp [renderToken, h]

/-- Claim C3, witness: the amended statement at a Word token (rendered
unchanged) and at a Keyword token (rendered upper-cased). -/
theorem c3_amended_witness :
    renderToken wordTok = wordTok.name ∧
    renderToken keywordTok = strToUpper keywordTok.name :=
  ⟨(c3_amended wordTok).1 rfl, (c3_amended keywordTok).2 (by decide)⟩

/-!  Claim C4. -/

/-- Claim C4: for every visited node of kind List, the emitted chunk is a
separator line of `indent` spaces followed by "!", immediately followed by
the node's own command line with the same indentation, where `indent` is
the number of strict ancestors of kind List. -/
theorem c4_list_separator (ancs : List DataNode) (n : DataNode)
    (hkind : n.kind = NodeKind.list) (s : String)
    (hs : visitChunk ancs n = some s) :
    ∃ toks, optionMapAll nodeTokens (localPath ancs n) = some toks ∧
      s = String.mk (List.replicate
            (ancs.countP (fun a => decide (a.kind = NodeKind.list))) ' ') ++ "!\n" ++
          (String.mk (List.replicate
            (ancs.countP (fun a => decide (a.kind = NodeKind.list))) ' ') ++
            String.intercalate " " toks.flatten ++ "\n") := by
  rw [visitChunk] at hs
  cases hm : optionMapAll nodeTokens (localPath ancs n) <;> rw [hm] at hs
  · simp at hs
  · refine ⟨_, rfl, ?_⟩
    simp only [hkind, if_true, Option.some.injEq, reduceIte] at hs
    rw [← hs, indentOf]

/-- Claim C4, witness: a List entry "interface eth0" below one List
ancestor is emitted as " !\n interface eth0\n". -/
theorem c4_witness :
    ∃ toks, optionMapAll nodeTokens (localPath [outerList] ifaceList) = some toks ∧
      " !\n interface eth0\n" =
        String.mk (List.replicate
          (([outerList] : List DataNode).countP
            (fun a => decide (a.kind = NodeKind.list))) ' ') ++ "!\n" ++
        (String.mk (List.replicate
          (([outerList] : List DataNode).countP
            (fun a => decide (a.kind = NodeKind.list))) ' ') ++
          String.intercalate " " toks.flatten ++ "\n") :=
  c4_list_separator [outerList] ifaceList (by decide) " !\n interface eth0\n" (by decide)

/-!  Claim C5. -/

/-- Claim C5: a node the traversal would visit (its kind passes the
filter) is omitted from the emission sequence exactly when
`includeDefaults` is false and its `isDefault` flag is true; and the chunk
emitted for every node kept without defaults reappears identically when
defaults are included (the chunks without defaults form a sublist of the
chunks with defaults — the rendering of a line never reads the flag). -/
theorem c5_default_filtering (t : List DataNode) :
    (∀ p ∈ traverseForest [] t, visitedKind p.2 = true →
      ∀ d : Bool, (p ∉ filteredVisits t d ↔ (d = false ∧ p.2.isDefault = true))) ∧
    (∀ bs₁ bs₂ : List String,
      optionMapAll (fun p => visitChunk p.1 p.2) (filteredVisits t false) = some bs₁ →
      optionMapAll (fun p => visitChunk p.1 p.2) (filteredVisits t true) = some bs₂ →
      bs₁.Sublist bs₂) := by
  constructor
  · intro p hp hv d
    rw [filteredVisits]
    cases d <;> cases hdef : p.2.isDefault <;>
      simp [List.mem_filter, hp, hv, hdef]
  · intro bs₁ bs₂ h1 h2
    refine optionMapAll_sublist ?_ h1 h2
    rw [filteredVisits, filteredVisits]
    refine List.monotone_filter_right _ ?_
    intro a h
    simp_all

/-- Claim C5, witness: the default leaf "mtu 1500" is omitted exactly when
defaults are excluded, and the chunk list without defaults (empty) is a
sublist of the one with defaults. -/
theorem c5_witness :
    (([], mtuLeaf) ∉ filteredVisits [mtuLeaf] false ↔
      (false = false ∧ mtuLeaf.isDefault = true)) ∧
    List.Sublist ([] : List String) ["mtu 1500\n"] :=
  ⟨(c5_default_filtering [mtuLeaf]).1 ([], mtuLeaf) (by rw [mtuVisits]; simp)
      (by decide) false,
    (c5_default_filtering [mtuLeaf]).2 [] ["mtu 1500\n"]
      (by rw [mtuVisitsFalse]; rfl) (by rw [mtuVisitsTrue]; rfl)⟩

/-!  Claim C6. -/

/-- Claim C6: whenever the flattener returns a text, that text ends with a
final line consisting exactly of "!" (the text is a newline-terminated
prefix followed by "!\n"); and on a tree with no eligible visits the whole
output is exactly the single line "!". -/
theorem c6_trailing_marker :
    (∀ (t : List DataNode) (d : Bool) (s : String),
      cmd_show_config_cmds t d = some s →
      ∃ p, s = p ++ "!\n" ∧ (p = "" ∨ ∃ q, p = q ++ "\n")) ∧
    (∀ (t : List DataNode) (d : Bool),
      filteredVisits t d = [] → cmd_show_config_cmds t d = some "!\n") := by
  constructor
  · intro t d s hs
    rw [cmd_show_config_cmds] at hs
    cases hm : optionMapAll (fun p => visitChunk p.1 p.2) (filteredVisits t d) <;>
      rw [hm] at hs
    · simp at hs
    · rename_i chunks
      simp only [Option.some.injEq] at hs
      refine ⟨strConcat chunks, hs.symm, ?_⟩
      refine nlTerminated_strConcat ?_
      intro c hc
      rcases optionMapAll_mem hm c hc with ⟨a, _, ha⟩
      exact visitChunk_nl ha
  · intro t d h
    rw [cmd_show_config_cmds, h]
    rfl

/-- Claim C6, witness: on the empty tree the flattener returns "!\n",
which decomposes as required. -/
theorem c6_witness :
    (∃ p, "!\n" = p ++ "!\n" ∧ (p = "" ∨ ∃ q, p = q ++ "\n")) ∧
    cmd_show_config_cmds [] false = some "!\n" :=
  ⟨c6_trailing_marker.1 [] false "!\n" emptyFlatten,
    c6_trailing_marker.2 [] false emptyVisits⟩

/-!  Claim C7. -/

/-- Claim C7: for an action-bearing token `t` whose strict ancestors are
`below` (those strictly inside the enumeration root's subtree, bottom-up)
followed by `above` (the root and everything above it), and whose arena
ids are pre-order-consistent (everything in `t :: below` has id greater
than the root's, nothing in `above` does), the emitted line is exactly the
renderings of the chain from `t` up to but not including the root, in
top-down order, joined by single spaces with one trailing space: the
id-comparison filter selects exactly that chain. -/
theorem c7_ancestor_filter (rootId : Nat) (below above : List TokenNode)
    (t : TokenNode)
    (hb : ∀ x ∈ t :: below, rootId < x.id)
    (ha : ∀ x ∈ above, ¬ rootId < x.id) :
    renderLine rootId (below ++ above) t =
      String.intercalate " " ((t :: below).reverse.map renderToken) ++ " " := by
  rw [renderLine]
  simp only [filter_chain hb ha]
  have hne : ((t :: below).reverse.map renderToken) ≠ [] := by simp
  rw [← strConcat_map_space hne, List.map_map]
  rfl

/-- Claim C7, witness: with enumeration root id 3, an action token of id 7
below ancestor id 5, and the root (id 3) plus its own ancestor (id 1)
above, the emitted line keeps exactly the tokens below the root. -/
theorem c7_witness :
    renderLine 3 (c7below ++ c7above) keywordTok =
      String.intercalate " " ((keywordTok :: c7below).reverse.map renderToken) ++ " " :=
  c7_ancestor_filter 3 c7below c7above keywordTok (by decide) (by decide)

/-!  Claim C8. -/

/-- Claim C8: the diff orchestrator flattens both snapshots with
`includeDefaults = false` and hands exactly those two texts to the
unified-diff formatter with context radius 9 and header labels
"running configuration" / "candidate configuration". -/
theorem c8_diff_orchestration (running candidate : List DataNode) (r c : String)
    (hr : cmd_show_config_cmds running false = some r)
    (hc : cmd_show_config_cmds candidate false = some c) :
    cmd_show_config_changes running candidate =
      some ⟨r, c, 9, "running configuration", "candidate configuration"⟩ := by
  rw [cmd_show_config_changes, hr, hc]

/-- Claim C8, witness: the orchestration on two empty snapshots. -/
theorem c8_witness :
    cmd_show_config_changes [] [] =
      some ⟨"!\n", "!\n", 9, "running configuration", "candidate configuration"⟩ :=
  c8_diff_orchestration [] [] "!\n" "!\n" emptyFlatten emptyFlatten

/-!  Claim C9. -/

/-- Claim C9: on a schema-conformant tree — every list-key child of every
node on a visited path carries a canonical value — the flattener is
total: none of its internal unwraps is reachable and a text is produced,
for both values of the flag.  (The trie enumerator `cmd_list_root` is
total by construction in this embedding: it performs no fallible
operation.) -/
theorem c9_flatten_total (t : List DataNode) (d : Bool)
    (hconf : ∀ p ∈ traverseForest [] t, ∀ x ∈ p.2 :: p.1,
      ∀ k ∈ x.listKeys, (k.value).isSome = true) :
    ∃ s, cmd_show_config_cmds t d = some s := by
  have hall : ∀ p ∈ filteredVisits t d,
      ((fun p : List DataNode × DataNode => visitChunk p.1 p.2) p).isSome = true := by
    intro p hp
    have hp' : p ∈ traverseForest [] t := by
      rw [filteredVisits] at hp
      exact (List.mem_filter.1 hp).1
    refine visitChunk_isSome ?_
    intro x hx
    refine hconf p hp' x ?_
    rw [localPath] at hx
    rcases List.mem_cons.1 (List.mem_reverse.1 hx) with hx | hx
    · rw [hx]
      exact List.mem_cons_self _ _
    · exact List.mem_cons_of_mem _ (mem_of_mem_takeWhile hx)
  rcases optionMapAll_isSome hall with ⟨chunks, hchunks⟩
  exact ⟨strConcat chunks ++ "!\n", by rw [cmd_show_config_cmds, hchunks]⟩

/-- Claim C9, witness: the flattener succeeds on a tree containing a list
entry whose key leaf carries a value. -/
theorem c9_witness : ∃ s, cmd_show_config_cmds [ifaceList] false = some s :=
  c9_flatten_total [ifaceList] false (by rw [ifaceVisits]; decide)

/-!  Claim C10. -/

/-- Claim C10: `child_value` returns the canonical value of the first
child whose schema name equals the given name provided that child carries
a canonical value, and returns the placeholder "-" when no child with the
given name exists. -/
theorem c10_child_value (n : DataNode) (nm : String) :
    (n.children.find? (fun c => c.name == nm) = none →
      child_value n nm = some "-") ∧
    (∀ c v, n.children.find? (fun c => c.name == nm) = some c →
      c.value = some v → child_value n nm = some v) := by
  constructor
  · intro h
    rw [child_value, child_opt_value, h]
    rfl
  · intro c v hc hv
    rw [child_value, child_opt_value, hc]
    simp [hv]

/-- Claim C10, witness: on a concrete state node, a missing child name
yields "-" and the child "state" yields its value "up". -/
theorem c10_witness :
    child_value ifaceState "missing" = some "-" ∧
    child_value ifaceState "state" = some "up" :=
  ⟨(c10_child_value ifaceState "missing").1 rfl,
    (c10_child_value ifaceState "state").2
      (.mk "state" (NodeKind.leaf false) (some "up") false []) "up" rfl rfl⟩

end HoloCli
